import Mathlib

/-!
Shallow embedding of the BRS save-file encoder (`src/write.rs`) of
brickadia-rs, together with theorems settling the frozen claims about it.

Bytes are modelled as natural numbers (values below 256 by construction of
the data), byte sequences as `List Nat`, and the bit-packed brick section as
`List Bool` in little-endian bit order (least significant bit first inside a
byte), matching `bitstream_io::LittleEndian`.

The primitive writers of `ext/write.rs` (`write_string`, `write_uuid`,
`write_array`, `write_uint`, `write_uint_packed`, `write_int_packed`,
`write_unreal`) and the constants of `lib.rs` (`MAGIC_BYTES`,
`SAVE_VERSION`) are code of this repository that is not under `src/`;
those definitions are modelled from the spec and carry a doc comment
saying so.  Everything else is translated from `src/write.rs` directly.
-/

namespace Brs

/-! ## Bit and byte primitives -/

/-- Little-endian bit expansion of `v` in exactly `w` bits (LSB first). -/
def natToBits : Nat → Nat → List Bool
  | _, 0 => []
  | v, w + 1 => (decide (v % 2 = 1)) :: natToBits (v / 2) w

/-- Value of a little-endian bit string (LSB first). -/
def bitsToNat : List Bool → Nat
  | [] => 0
  | b :: rest => (if b then 1 else 0) + 2 * bitsToNat rest

/-- Little-endian 4-byte encoding of a natural number below `2^32`. -/
def le32 (n : Nat) : List Nat :=
  [n % 256, n / 256 % 256, n / 65536 % 256, n / 16777216 % 256]

/-- Little-endian `int32` encoding (two's complement) of an integer,
as produced by `byteorder::LittleEndian::write_i32`. -/
def i32le (z : Int) : List Nat :=
  le32 (z % 4294967296).toNat

/-- Little-endian `uint16` encoding. -/
def le16 (n : Nat) : List Nat :=
  [n % 256, n / 256 % 256]

/-- UTF-8 bytes of a string. -/
def strBytes (s : String) : List Nat :=
  s.toUTF8.toList.map (fun b => b.toNat)

/-- Modelled from the spec: `write_string` of `ext/write.rs` (not under
`src/`): length-prefixed text, an `int32` byte-length prefix followed by the
raw bytes (spec section 4.1). -/
def write_string (s : String) : List Nat :=
  i32le (Int.ofNat (strBytes s).length) ++ strBytes s

/-- Modelled from the spec: `write_array` of `ext/write.rs` (not under
`src/`): a `count:int32` prefix followed by each element's own encoding
(spec section 4.4). -/
def writeArrayBytes {α : Type} (l : List α) (f : α → List Nat) : List Nat :=
  i32le (Int.ofNat l.length) ++ (l.map f).flatten

/-- Bits of a list of bytes, each byte LSB first. -/
def bytesToBits (bytes : List Nat) : List Bool :=
  (bytes.map (fun b => natToBits b 8)).flatten

/-- Bytes of a bit string whose length is a multiple of 8 (chunks of 8 bits,
LSB first inside each byte). -/
def bitsToBytes : List Bool → List Nat
  | [] => []
  | b :: rest => bitsToNat (b :: rest.take 7) :: bitsToBytes (rest.drop 7)
termination_by l => l.length
decreasing_by
  simp only [List.length_cons, List.length_drop]
  omega

/-- Zero-bit padding up to the next byte boundary, as performed by
`BitWriter::byte_align`. -/
def alignBits (l : List Bool) : List Bool :=
  l ++ List.replicate ((8 - l.length % 8) % 8) false

/-- Modelled from the spec: `write_uint` of `ext/write.rs` (not under
`src/`): a fixed-width unsigned field with an explicitly supplied bit width,
written LSB first (spec section 4.3, "write unsigned(width_bits) (width
computed by the caller ...)"). -/
def write_uint (value width : Nat) : List Bool :=
  natToBits value width

/-- Modelled from the spec: `write_uint_packed` of `ext/write.rs` (not under
`src/`): a variable-length unsigned encoding made of 7-bit payload groups,
each carrying a continuation flag (spec section 4.1).  The spec does not fix
the order inside a group; this model puts the flag first. -/
def write_uint_packed (v : Nat) : List Bool :=
  if _h : v < 128 then
    false :: natToBits v 7
  else
    true :: (natToBits (v % 128) 7 ++ write_uint_packed (v / 128))
termination_by v
decreasing_by
  exact Nat.div_lt_self (by omega) (by omega)

/-- Modelled from the spec: `write_int_packed` of `ext/write.rs` (not under
`src/`): maps a signed value to an unsigned one via a sign-and-magnitude
transform, then delegates to the unsigned packed encoder (spec
section 4.1). -/
def write_int_packed (z : Int) : List Bool :=
  write_uint_packed (2 * z.natAbs + (if z < 0 then 1 else 0))

/-- Modelled from the spec: bit-level `write_array` of `ext/write.rs` (not
under `src/`): a `count:int32` prefix (as raw little-endian bytes) followed
by each element's own bit encoding (spec sections 4.4 and 4.6). -/
def bitArray {α : Type} (l : List α) (f : α → List Bool) : List Bool :=
  bytesToBits (i32le (Int.ofNat l.length)) ++ (l.map f).flatten

/-! ## Data model (`save.rs` is not under `src/`; shapes follow the spec's
data model, field names follow their uses in `src/write.rs`) -/

/-- Actor: unique id (16 raw bytes) plus display name. -/
structure User where
  id : List Nat
  name : String
deriving Repr, DecidableEq

/-- Identity section. -/
structure Header1 where
  map : String
  author : User
  description : String
  host : Option User
  save_time : List Nat
deriving Repr, DecidableEq

/-- RGBA color; written in BGRA byte order by `write_color_bgra`. -/
structure Color where
  r : Nat
  g : Nat
  b : Nat
  a : Nat
deriving Repr, DecidableEq

/-- Brick owner entry of the catalog. -/
structure BrickOwner where
  id : List Nat
  name : String
  bricks : Nat
deriving Repr, DecidableEq

/-- Catalog section. -/
structure Header2 where
  mods : List String
  brick_assets : List String
  colors : List Color
  materials : List String
  brick_owners : List BrickOwner
  physical_materials : List String
deriving Repr, DecidableEq

/-- Modelled from the spec: the preview of `save.rs` (not under `src/`), a
discriminated payload whose leading type byte is 0 when absent and a
caller-defined nonzero tag when present (spec section 3). -/
inductive Preview where
  | absent : Preview
  | present (tag : Nat) (bytes : List Nat) : Preview
deriving Repr, DecidableEq

/-- Type byte of a preview (`Preview::type_byte`). -/
def Preview.type_byte : Preview → Nat
  | .absent => 0
  | .present tag _ => tag

/-- Payload of a present preview (`Preview::unwrap`); only evaluated when
the type byte is nonzero. -/
def Preview.unwrapBytes : Preview → List Nat
  | .absent => []
  | .present _ bytes => bytes

/-- Brick size: procedural dimensions or empty. -/
inductive Size where
  | Procedural (x y z : Nat) : Size
  | Empty : Size
deriving Repr, DecidableEq

/-- Brick color: an index into the color table, or a unique RGB triple. -/
inductive BrickColor where
  | Index (ind : Nat) : BrickColor
  | Unique (color : Color) : BrickColor
deriving Repr, DecidableEq

/-- Collision flags of a brick. -/
structure Collision where
  player : Bool
  weapon : Bool
  interaction : Bool
  tool : Bool
deriving Repr, DecidableEq

/-- Modelled from the spec: an opaque typed component value (spec
section 4.6); `write_unreal` of `ext/write.rs` is not under `src/`, so the
value is modelled directly by its self-describing wire bits. -/
structure UnrealType where
  wire : List Bool
deriving Repr, DecidableEq

/-- A brick record.  The component-value map (component name to property
name to typed value) is modelled as nested association lists; the Rust
`HashMap` guarantees key uniqueness, assumed as a hypothesis where it
matters. -/
structure Brick where
  asset_name_index : Nat
  size : Size
  position : Int × Int × Int
  direction : Nat
  rotation : Nat
  collision : Collision
  visibility : Bool
  material_index : Nat
  physical_index : Nat
  material_intensity : Nat
  color : BrickColor
  owner_index : Nat
  components : List (String × List (String × UnrealType))
deriving Repr, DecidableEq

/-- A component: version and property schema (name, type pairs). -/
structure Component where
  version : Int
  properties : List (String × String)
deriving Repr, DecidableEq

/-- The save document (`SaveData`). -/
structure SaveData where
  game_version : Int
  header1 : Header1
  header2 : Header2
  preview : Preview
  bricks : List Brick
  components : List (String × Component)
deriving Repr, DecidableEq

/-! ## Constants -/

/-- Modelled from the spec: the fixed 4-byte constant identifying the format
(`MAGIC_BYTES` of `lib.rs`, not under `src/`); the spec fixes its length
(4 bytes) but not its byte values. -/
def MAGIC_BYTES : List Nat := [66, 82, 83, 0]

/-- Modelled from the spec: the format version constant (`SAVE_VERSION` of
`lib.rs`, not under `src/`), a `uint16`; its numeric value is not fixed by
the spec. -/
def SAVE_VERSION : Nat := 10

/-! ## Block framing (`write_compressed`, `src/write.rs` lines 284-300) -/

/-- The zlib stream that `flate2::write::ZlibEncoder::finish` flushes into
its sink when no data was ever written through the encoder: the 2-byte zlib
header, an empty final deflate block, and the Adler-32 checksum of the empty
input, 8 bytes in total. -/
def zlibEmptyFinish : List Nat := [120, 156, 3, 0, 0, 0, 0, 1]

/-- Embedding of `write_compressed`.  The source constructs
`ZlibEncoder::new(vec.clone(), Compression::default()).finish()`: with
flate2's write-side encoder the first argument is the output *sink*, and no
byte of `vec` is ever written through the encoder, so `finish` returns the
sink `vec.clone()` with the zlib stream of the empty input appended. -/
def write_compressed (vec : List Nat) : List Nat :=
  let compressed := vec ++ zlibEmptyFinish
  i32le (Int.ofNat vec.length) ++
    (if compressed.length < vec.length then
      i32le (Int.ofNat compressed.length) ++ compressed
    else
      i32le 0 ++ vec)

/-! ## Headers and preview -/

/-- Payload of the identity block (`write_header1`, lines 46-74), before
framing: map name, author name, description, author id, host name, host id
(the host defaulting to the author when `None`), the raw save-time stamp and
the brick count. -/
def header1Bytes (data : SaveData) : List Nat :=
  let h := data.header1
  let host := h.host.getD h.author
  write_string h.map ++ write_string h.author.name ++
    write_string h.description ++ h.author.id ++
    write_string host.name ++ host.id ++
    h.save_time ++ i32le (Int.ofNat data.bricks.length)

/-- Payload of the catalog block (`write_header2`, lines 77-111), before
framing. -/
def header2Bytes (data : SaveData) : List Nat :=
  let h := data.header2
  writeArrayBytes h.mods write_string ++
    writeArrayBytes h.brick_assets write_string ++
    writeArrayBytes h.colors (fun c => [c.b, c.g, c.r, c.a]) ++
    writeArrayBytes h.materials write_string ++
    writeArrayBytes h.brick_owners
      (fun o => o.id ++ write_string o.name ++ i32le (Int.ofNat o.bricks)) ++
    writeArrayBytes h.physical_materials write_string

/-- Bytes of the preview section (`write_preview`, lines 114-127): one type
byte, then, when the type byte is nonzero, an `int32` length and the raw
bytes. -/
def previewOut (p : Preview) : List Nat :=
  let t := p.type_byte
  [t] ++
    (match t with
    | 0 => []
    | _ => i32le (Int.ofNat p.unwrapBytes.length) ++ p.unwrapBytes)

/-! ## Brick section (`write_bricks`, lines 130-219) -/

/-- Effective cardinality for the asset-name index (line 134). -/
def asset_name_count (data : SaveData) : Nat :=
  max data.header2.brick_assets.length 2

/-- Effective cardinality for the material index (line 135). -/
def material_count (data : SaveData) : Nat :=
  max data.header2.materials.length 2

/-- Effective cardinality for the physical-material index (line 136). -/
def physical_material_count (data : SaveData) : Nat :=
  max data.header2.physical_materials.length 2

/-- Effective cardinality for the indexed color (line 137). -/
def color_count (data : SaveData) : Nat :=
  max data.header2.colors.length 2

/-- Bits of the size field (lines 150-158). -/
def sizeBits : Size → List Bool
  | .Procedural x y z =>
      true :: (write_uint_packed x ++ write_uint_packed y ++ write_uint_packed z)
  | .Empty => [false]

/-- Bits of the position field (lines 162-164). -/
def posBits (p : Int × Int × Int) : List Bool :=
  write_int_packed p.1 ++ write_int_packed p.2.1 ++ write_int_packed p.2.2

/-- Bits of the color field (lines 192-202). -/
def colorBits (count : Nat) : BrickColor → List Bool
  | .Index ind => false :: write_uint ind count
  | .Unique c => true :: bytesToBits [c.r, c.g, c.b]

/-- Bits of one brick record (loop body, lines 142-215), in source order:
asset name index, size, position, orientation, collision, visibility,
material index, physical index, material intensity, color, owner index. -/
def brickRecordBits (data : SaveData) (brick : Brick) : List Bool :=
  write_uint brick.asset_name_index (asset_name_count data) ++
    sizeBits brick.size ++
    posBits brick.position ++
    write_uint ((brick.direction <<< 2) ||| brick.rotation) 24 ++
    [brick.collision.player, brick.collision.weapon,
      brick.collision.interaction, brick.collision.tool] ++
    [brick.visibility] ++
    write_uint brick.material_index (material_count data) ++
    write_uint brick.physical_index (physical_material_count data) ++
    write_uint brick.material_intensity 11 ++
    colorBits (color_count data) brick.color ++
    write_uint_packed brick.owner_index

/-- Bits of the whole brick section: each brick is preceded by a byte
alignment and the section is aligned once more at the end (lines 143
and 217). -/
def brickSectionBits (data : SaveData) : List Bool :=
  alignBits (data.bricks.foldl
    (fun acc b => alignBits acc ++ brickRecordBits data b) [])

/-- Bytes of the brick section payload, before framing. -/
def brickSectionBytes (data : SaveData) : List Nat :=
  bitsToBytes (brickSectionBits data)

/-! ## Component-to-brick-index accumulation (lines 140 and 207-214) -/

/-- First-match lookup in an association list, mirroring `HashMap` lookup. -/
def assocLookup {β : Type} : List (String × β) → String → Option β
  | [], _ => none
  | (k, v) :: rest, key => if k = key then some v else assocLookup rest key

/-- Whether a brick's component map contains the given name. -/
def hasComp (b : Brick) (name : String) : Bool :=
  (assocLookup b.components name).isSome

/-- One step of the accumulation (lines 208-213): push `i` onto the entry
for `key`, or insert a fresh singleton entry. -/
def cbInsert : List (String × List Nat) → String → Nat → List (String × List Nat)
  | [], key, i => [(key, [i])]
  | (k, l) :: rest, key, i =>
      if k = key then (k, l ++ [i]) :: rest else (k, l) :: cbInsert rest key i

/-- Process one brick's component keys (loop at line 207). -/
def cbAddBrick (m : List (String × List Nat)) (i : Nat) (keys : List String) :
    List (String × List Nat) :=
  keys.foldl (fun m k => cbInsert m k i) m

/-- Accumulate over the brick list starting at index `n` (the enumerated
loop of line 142). -/
def cbBuild (n : Nat) : List Brick → List (String × List Nat) → List (String × List Nat)
  | [], m => m
  | b :: rest, m => cbBuild (n + 1) rest (cbAddBrick m n (b.components.map Prod.fst))

/-- The `component_bricks` map after the brick loop. -/
def componentBricks (bricks : List Brick) : List (String × List Nat) :=
  cbBuild 0 bricks []

/-- Specification-side view of the accumulated index list: the indices
(starting at `n`) of the bricks whose component map contains `name`, in
traversal order. -/
def idxList (name : String) : Nat → List Brick → List Nat
  | _, [] => []
  | n, b :: rest =>
      if hasComp b name then n :: idxList name (n + 1) rest
      else idxList name (n + 1) rest

/-- Append further indices onto an optional accumulated entry; `none` with
nothing to append stays absent. -/
def optAppend (o : Option (List Nat)) (l : List Nat) : Option (List Nat) :=
  match o, l with
  | none, [] => none
  | none, l => some l
  | some a, l => some (a ++ l)

/-! ## Component section (lines 221-268) -/

/-- Option-valued `mapM`, modelling a Rust loop whose body can panic (a
missing `HashMap` key under `Index`) as `none`. -/
def traverseOpt {α β : Type} (f : α → Option β) : List α → Option (List β)
  | [] => some []
  | a :: l =>
      match f a with
      | none => none
      | some b => (traverseOpt f l).map (fun bs => b :: bs)

/-- The typed values written for one listed brick index (lines 252-262):
for every property of the schema, look the value up in
`brick.components[name][p]` — a missing key is a panic, modelled `none`. -/
def brickValues (bricks : List Brick) (name : String)
    (props : List (String × String)) (i : Nat) : Option (List Bool) :=
  match bricks.get? i with
  | none => none
  | some brick =>
      (traverseOpt (fun pr =>
        match assocLookup brick.components name with
        | none => none
        | some inner =>
            match assocLookup inner pr.1 with
            | none => none
            | some v => some v.wire) props).map List.flatten

/-- Bit-packed sub-section of one component (lines 227-264): version as four
raw bytes, the brick-index array (each index written against
`max(brick_count, 2)`), the property array, then the typed values. -/
def entryBits (comp : Component) (idxs : List Nat) (brick_count : Nat)
    (vals : List (List Bool)) : List Bool :=
  bytesToBits (i32le comp.version) ++
    bitArray idxs (fun i => write_uint i (max brick_count 2)) ++
    bitArray comp.properties
      (fun pr => bytesToBits (write_string pr.1) ++ bytesToBits (write_string pr.2)) ++
    vals.flatten

/-- Bytes contributed by one component entry (loop body, lines 224-266):
the name, then the byte-aligned bit sub-section.  `none` models the panics
of `component_bricks[&name]` (lines 235 and 252) and of the nested
component-value lookups (line 260). -/
def writeComponentEntry (bricks : List Brick) (cb : List (String × List Nat))
    (brick_count : Nat) (entry : String × Component) : Option (List Nat) :=
  match assocLookup cb entry.1 with
  | none => none
  | some idxs =>
      match traverseOpt (brickValues bricks entry.1 entry.2.properties) idxs with
      | none => none
      | some vals =>
          some (write_string entry.1 ++
            bitsToBytes (alignBits (entryBits entry.2 idxs brick_count vals)))

/-- Payload of the component table block (lines 221-266), before framing:
the component count, then each component entry in document order. -/
def componentSectionBytes (data : SaveData) : Option (List Nat) :=
  (traverseOpt
      (writeComponentEntry data.bricks (componentBricks data.bricks)
        data.bricks.length)
      data.components).map
    (fun entries => i32le (Int.ofNat data.components.length) ++ entries.flatten)

/-- Output of `write_bricks` (lines 130-271): the framed brick section
followed by the framed component section; `none` models a panic. -/
def write_bricksOut (data : SaveData) : Option (List Nat) :=
  (componentSectionBytes data).map
    (fun cs => write_compressed (brickSectionBytes data) ++ write_compressed cs)

/-! ## Full save (`write_header0` lines 37-43, `write` lines 274-280) -/

/-- Output of `write_header0`: magic bytes, save version (`uint16`), game
version (`int32`), all uncompressed. -/
def header0Out (data : SaveData) : List Nat :=
  MAGIC_BYTES ++ le16 SAVE_VERSION ++ i32le data.game_version

/-- Output of `write_header1`: header 0 followed by the framed identity
block. -/
def write_header1Out (data : SaveData) : List Nat :=
  header0Out data ++ write_compressed (header1Bytes data)

/-- Output of `write`: header 1, catalog block, preview, then the brick and
component blocks. -/
def write (data : SaveData) : Option (List Nat) :=
  (write_bricksOut data).map
    (fun bb => write_header1Out data ++ write_compressed (header2Bytes data) ++
      previewOut data.preview ++ bb)

/-! ## Sample documents used by the witness theorems -/

/-- A sample author. -/
def sampleUser : User :=
  { id := List.replicate 16 0, name := "alice" }

/-- A sample brick with empty size, indexed color and no components. -/
def sampleBrick : Brick :=
  { asset_name_index := 0
    size := Size.Empty
    position := (0, 0, 0)
    direction := 0
    rotation := 0
    collision := { player := true, weapon := true, interaction := true, tool := true }
    visibility := true
    material_index := 0
    physical_index := 0
    material_intensity := 0
    color := BrickColor.Index 0
    owner_index := 0
    components := [] }

/-- A sample document with empty lookup tables and one brick. -/
def sampleData : SaveData :=
  { game_version := 0
    header1 :=
      { map := "plate", author := sampleUser, description := "",
        host := none, save_time := List.replicate 8 0 }
    header2 :=
      { mods := [], brick_assets := [], colors := [], materials := [],
        brick_owners := [], physical_materials := [] }
    preview := Preview.absent
    bricks := [sampleBrick]
    components := [] }

/-- A sample typed component value. -/
def sampleValue : UnrealType := { wire := [true, false, true] }

/-- A sample component schema with one property. -/
def sampleComponent : Component :=
  { version := 1, properties := [("value", "int")] }

/-- A brick referencing the component "Health" with its property filled. -/
def sampleBrickHealth : Brick :=
  { sampleBrick with components := [("Health", [("value", sampleValue)])] }

/-- A brick referencing "Health" but lacking the "value" property. -/
def sampleBrickNoValue : Brick :=
  { sampleBrick with components := [("Health", [])] }

/-- A document whose single brick references the single component. -/
def sampleDataHealth : SaveData :=
  { sampleData with
      bricks := [sampleBrickHealth]
      components := [("Health", sampleComponent)] }

/-- A document whose brick references the component but misses a property
value. -/
def sampleDataNoValue : SaveData :=
  { sampleData with
      bricks := [sampleBrickNoValue]
      components := [("Health", sampleComponent)] }

/-- A document carrying a component that no brick references. -/
def sampleDataOrphan : SaveData :=
  { sampleData with components := [("Health", sampleComponent)] }

/-! ## Basic lemmas -/

/-- A fixed-width field occupies exactly its width. -/
theorem natToBits_length (v w : Nat) : (natToBits v w).length = w := by
  induction w generalizing v with
  | zero => rfl
  | succ w ih => simp [natToBits, ih]

/-- Decoding a fixed-width little-endian field recovers the value modulo
`2 ^ width`. -/
theorem bitsToNat_natToBits (w v : Nat) : bitsToNat (natToBits v w) = v % 2 ^ w := by
  induction w generalizing v with
  | zero => simp [natToBits, bitsToNat, Nat.mod_one]
  | succ w ih =>
      have h2 : (if decide (v % 2 = 1) = true then (1 : Nat) else 0) = v % 2 := by
        rcases Nat.mod_two_eq_zero_or_one v with h | h <;> simp [h]
      calc bitsToNat (natToBits v (w + 1))
          = (if decide (v % 2 = 1) = true then 1 else 0)
              + 2 * bitsToNat (natToBits (v / 2) w) := rfl
        _ = v % 2 + 2 * (v / 2 % 2 ^ w) := by rw [h2, ih]
        _ = v % (2 * 2 ^ w) := Nat.mod_mul.symm
        _ = v % 2 ^ (w + 1) := by rw [Nat.pow_succ, Nat.mul_comm]

/-- The writer never takes the compressed branch: the candidate it compares
is the original buffer with the 8-byte zlib stream of the empty input
appended, which is never strictly shorter than the buffer. -/
theorem write_compressed_eq (vec : List Nat) :
    write_compressed vec = i32le (Int.ofNat vec.length) ++ i32le 0 ++ vec := by
  have hnot : ¬ ((vec ++ zlibEmptyFinish).length < vec.length) := by
    simp only [zlibEmptyFinish, List.length_append, List.length_cons, List.length_nil]
    omega
  simp [write_compressed, hnot]

/-! ## Claims -/

/-- C1: the claim states that `write_compressed` emits the compressed
candidate (with its length) whenever the zlib compression of the input is
strictly shorter than the input.  The code instead misuses
`flate2::write::ZlibEncoder`: the input is used as the encoder's output
sink and no byte is ever fed through the encoder, so the candidate is the
input plus an 8-byte empty zlib stream and the compressed branch is
unreachable.  This theorem evaluates the code at a compressible failing
input (100 repeated bytes) and proves the stored-raw behaviour holds for
every input. -/
theorem C1_write_compressed_always_raw :
    write_compressed (List.replicate 100 7)
      = i32le 100 ++ i32le 0 ++ List.replicate 100 7
    ∧ ∀ vec : List Nat,
        write_compressed vec = i32le (Int.ofNat vec.length) ++ i32le 0 ++ vec := by
  refine ⟨?_, write_compressed_eq⟩
  rw [write_compressed_eq]
  rfl

/-- C2: the four per-brick index fields are written against the effective
cardinalities `max(len(table), 2)` computed at lines 134-137, each field
occupies exactly that many bits of the brick record, and a table with 0 or
1 entries still yields an index field of at least 1 bit. -/
theorem C2_bit_width_floor (data : SaveData) (b : Brick) :
    asset_name_count data = max data.header2.brick_assets.length 2
    ∧ material_count data = max data.header2.materials.length 2
    ∧ physical_material_count data = max data.header2.physical_materials.length 2
    ∧ color_count data = max data.header2.colors.length 2
    ∧ (∃ suf, brickRecordBits data b
        = write_uint b.asset_name_index (asset_name_count data) ++ suf)
    ∧ (write_uint b.asset_name_index (asset_name_count data)).length
        = max data.header2.brick_assets.length 2
    ∧ (∃ pre suf, brickRecordBits data b
        = pre ++ write_uint b.material_index (material_count data) ++ suf)
    ∧ (write_uint b.material_index (material_count data)).length
        = max data.header2.materials.length 2
    ∧ (∃ pre suf, brickRecordBits data b
        = pre ++ write_uint b.physical_index (physical_material_count data) ++ suf)
    ∧ (write_uint b.physical_index (physical_material_count data)).length
        = max data.header2.physical_materials.length 2
    ∧ (∀ ind, b.color = BrickColor.Index ind →
        (∃ pre suf, brickRecordBits data b
          = pre ++ (false :: write_uint ind (color_count data)) ++ suf)
        ∧ (write_uint ind (color_count data)).length
            = max data.header2.colors.length 2)
    ∧ (data.header2.brick_assets.length ≤ 1 →
        1 ≤ (write_uint b.asset_name_index (asset_name_count data)).length)
    ∧ (data.header2.materials.length ≤ 1 →
        1 ≤ (write_uint b.material_index (material_count data)).length)
    ∧ (data.header2.physical_materials.length ≤ 1 →
        1 ≤ (write_uint b.physical_index (physical_material_count data)).length)
    ∧ (data.header2.colors.length ≤ 1 →
        ∀ ind, 1 ≤ (write_uint ind (color_count data)).length) := by
  refine ⟨rfl, rfl, rfl, rfl,
    ⟨sizeBits b.size ++ posBits b.position
      ++ write_uint ((b.direction <<< 2) ||| b.rotation) 24
      ++ [b.collision.player, b.collision.weapon, b.collision.interaction, b.collision.tool]
      ++ [b.visibility]
      ++ write_uint b.material_index (material_count data)
      ++ write_uint b.physical_index (physical_material_count data)
      ++ write_uint b.material_intensity 11
      ++ colorBits (color_count data) b.color
      ++ write_uint_packed b.owner_index, ?_⟩,
    natToBits_length _ _,
    ⟨write_uint b.asset_name_index (asset_name_count data) ++ sizeBits b.size
      ++ posBits b.position
      ++ write_uint ((b.direction <<< 2) ||| b.rotation) 24
      ++ [b.collision.player, b.collision.weapon, b.collision.interaction, b.collision.tool]
      ++ [b.visibility],
      write_uint b.physical_index (physical_material_count data)
        ++ write_uint b.material_intensity 11
        ++ colorBits (color_count data) b.color
        ++ write_uint_packed b.owner_index, ?_⟩,
    natToBits_length _ _,
    ⟨write_uint b.asset_name_index (asset_name_count data) ++ sizeBits b.size
      ++ posBits b.position
      ++ write_uint ((b.direction <<< 2) ||| b.rotation) 24
      ++ [b.collision.player, b.collision.weapon, b.collision.interaction, b.collision.tool]
      ++ [b.visibility]
      ++ write_uint b.material_index (material_count data),
      write_uint b.material_intensity 11
        ++ colorBits (color_count data) b.color
        ++ write_uint_packed b.owner_index, ?_⟩,
    natToBits_length _ _,
    ?_, ?_, ?_, ?_, ?_⟩
  · simp [brickRecordBits, List.append_assoc]
  · simp [brickRecordBits, List.append_assoc]
  · simp [brickRecordBits, List.append_assoc]
  · intro ind hind
    refine ⟨⟨write_uint b.asset_name_index (asset_name_count data) ++ sizeBits b.size
      ++ posBits b.position
      ++ write_uint ((b.direction <<< 2) ||| b.rotation) 24
      ++ [b.collision.player, b.collision.weapon, b.collision.interaction, b.collision.tool]
      ++ [b.visibility]
      ++ write_uint b.material_index (material_count data)
      ++ write_uint b.physical_index (physical_material_count data)
      ++ write_uint b.material_intensity 11,
      write_uint_packed b.owner_index, ?_⟩, natToBits_length _ _⟩
    simp [brickRecordBits, hind, colorBits, List.append_assoc]
  · intro _
    rw [write_uint, natToBits_length, asset_name_count]
    omega
  · intro _
    rw [write_uint, natToBits_length, material_count]
    omega
  · intro _
    rw [write_uint, natToBits_length, physical_material_count]
    omega
  · intro _ ind
    rw [write_uint, natToBits_length, color_count]
    omega

/-- Witness for C2 at a document whose tables are all empty and a brick
with an indexed color. -/
theorem C2_bit_width_floor_witness :
    ((∃ pre suf, brickRecordBits sampleData sampleBrick
        = pre ++ (false :: write_uint 0 (color_count sampleData)) ++ suf)
      ∧ (write_uint 0 (color_count sampleData)).length
          = max sampleData.header2.colors.length 2)
    ∧ 1 ≤ (write_uint sampleBrick.asset_name_index (asset_name_count sampleData)).length
    ∧ 1 ≤ (write_uint sampleBrick.material_index (material_count sampleData)).length
    ∧ 1 ≤ (write_uint sampleBrick.physical_index (physical_material_count sampleData)).length := by
  have h := C2_bit_width_floor sampleData sampleBrick
  obtain ⟨_, _, _, _, _, _, _, _, _, _, hcol, ha, hm, hp, _⟩ := h
  exact ⟨hcol 0 rfl, ha (by decide), hm (by decide), hp (by decide)⟩

/-- C4: the brick record carries one combined orientation field, written
right after the position field, spanning 24 bits and holding
`(direction <<< 2) ||| rotation`. -/
theorem C4_orientation_field (data : SaveData) (b : Brick) :
    (∃ suf, brickRecordBits data b
        = (write_uint b.asset_name_index (asset_name_count data)
            ++ sizeBits b.size ++ posBits b.position)
          ++ write_uint ((b.direction <<< 2) ||| b.rotation) 24 ++ suf)
    ∧ (write_uint ((b.direction <<< 2) ||| b.rotation) 24).length = 24
    ∧ (b.direction < 4194304 → b.rotation < 4 →
        bitsToNat (write_uint ((b.direction <<< 2) ||| b.rotation) 24)
          = (b.direction <<< 2) ||| b.rotation) := by
  refine ⟨⟨[b.collision.player, b.collision.weapon, b.collision.interaction, b.collision.tool]
      ++ [b.visibility]
      ++ write_uint b.material_index (material_count data)
      ++ write_uint b.physical_index (physical_material_count data)
      ++ write_uint b.material_intensity 11
      ++ colorBits (color_count data) b.color
      ++ write_uint_packed b.owner_index, ?_⟩, natToBits_length _ _, ?_⟩
  · simp [brickRecordBits, List.append_assoc]
  · intro h1 h2
    have h4 : (2 : Nat) ^ 24 = 16777216 := by norm_num
    have hsh : b.direction <<< 2 = b.direction * 4 := by
      rw [Nat.shiftLeft_eq]
    have hd : b.direction <<< 2 < 2 ^ 24 := by omega
    have hr : b.rotation < 2 ^ 24 := by omega
    rw [write_uint, bitsToNat_natToBits,
      Nat.mod_eq_of_lt (Nat.or_lt_two_pow hd hr)]

/-- Witness for C4 at the sample brick. -/
theorem C4_orientation_field_witness :
    bitsToNat (write_uint ((sampleBrick.direction <<< 2) ||| sampleBrick.rotation) 24)
      = (sampleBrick.direction <<< 2) ||| sampleBrick.rotation
    ∧ (write_uint ((sampleBrick.direction <<< 2) ||| sampleBrick.rotation) 24).length = 24 := by
  have h := C4_orientation_field sampleData sampleBrick
  exact ⟨h.2.2 (by decide) (by decide), h.2.1⟩

/-- C5: the material-intensity field of the brick record occupies exactly
11 bits, and every value from 0 to 2047 is representable (decodes back to
itself). -/
theorem C5_material_intensity_field (data : SaveData) (b : Brick) :
    (∃ pre suf, brickRecordBits data b
        = pre ++ write_uint b.material_intensity 11 ++ suf)
    ∧ (write_uint b.material_intensity 11).length = 11
    ∧ (∀ v : Nat, v ≤ 2047 → bitsToNat (write_uint v 11) = v) := by
  refine ⟨⟨write_uint b.asset_name_index (asset_name_count data) ++ sizeBits b.size
      ++ posBits b.position
      ++ write_uint ((b.direction <<< 2) ||| b.rotation) 24
      ++ [b.collision.player, b.collision.weapon, b.collision.interaction, b.collision.tool]
      ++ [b.visibility]
      ++ write_uint b.material_index (material_count data)
      ++ write_uint b.physical_index (physical_material_count data),
      colorBits (color_count data) b.color ++ write_uint_packed b.owner_index, ?_⟩,
    natToBits_length _ _, ?_⟩
  · simp [brickRecordBits, List.append_assoc]
  · intro v hv
    have h11 : (2 : Nat) ^ 11 = 2048 := by norm_num
    rw [write_uint, bitsToNat_natToBits, Nat.mod_eq_of_lt (by omega)]

/-- Witness for C5 at the sample brick and the largest representable
value. -/
theorem C5_material_intensity_field_witness :
    bitsToNat (write_uint 2047 11) = 2047
    ∧ (write_uint sampleBrick.material_intensity 11).length = 11 := by
  have h := C5_material_intensity_field sampleData sampleBrick
  exact ⟨h.2.2 2047 (by decide), h.2.1⟩

/-- C7: when the identity section has no host, the author's name and id are
written in the host positions, so the identity block is byte-identical to
the one produced with the host explicitly set to the author. -/
theorem C7_host_defaults_to_author (data : SaveData) :
    header1Bytes { data with header1 := { data.header1 with host := none } }
      = header1Bytes { data with header1 :=
          { data.header1 with host := some data.header1.author } }
    ∧ write_compressed (header1Bytes { data with header1 :=
          { data.header1 with host := none } })
      = write_compressed (header1Bytes { data with header1 :=
          { data.header1 with host := some data.header1.author } }) := by
  constructor <;> rfl

/-- C9: encoding is deterministic — `write` is a function of the document
alone, so equal documents produce identical byte sequences. -/
theorem C9_write_deterministic (d1 d2 : SaveData) (h : d1 = d2) :
    write d1 = write d2 := by
  rw [h]

/-- Witness for C9 at the sample document. -/
theorem C9_write_deterministic_witness : write sampleData = write sampleData :=
  C9_write_deterministic sampleData sampleData rfl

/-- C3: the emitted file is the 4 magic bytes, the format version as a
little-endian `uint16`, the game version as an uncompressed little-endian
`int32`, the framed identity block, the framed catalog block, the preview
(one type byte, plus an `int32` length and the raw bytes when the type byte
is nonzero), the framed brick section and the framed component section, in
that order. -/
theorem C3_wire_layout (data : SaveData) (cs : List Nat)
    (h : componentSectionBytes data = some cs) :
    write data = some (MAGIC_BYTES ++ le16 SAVE_VERSION ++ i32le data.game_version
      ++ write_compressed (header1Bytes data)
      ++ write_compressed (header2Bytes data)
      ++ previewOut data.preview
      ++ write_compressed (brickSectionBytes data)
      ++ write_compressed cs)
    ∧ MAGIC_BYTES.length = 4
    ∧ (∀ p : Preview, previewOut p = p.type_byte ::
        (if p.type_byte = 0 then []
          else i32le (Int.ofNat p.unwrapBytes.length) ++ p.unwrapBytes)) := by
  refine ⟨?_, rfl, ?_⟩
  · simp [write, write_bricksOut, h, write_header1Out, header0Out, List.append_assoc]
  · intro p
    cases p with
    | absent => rfl
    | present tag bytes =>
        cases tag with
        | zero => rfl
        | succ n => rfl

/-- Witness for C3 at the sample document (no components, so the component
payload is the zero count alone). -/
theorem C3_wire_layout_witness :
    componentSectionBytes sampleData = some [0, 0, 0, 0]
    ∧ write sampleData = some (MAGIC_BYTES ++ le16 SAVE_VERSION
      ++ i32le sampleData.game_version
      ++ write_compressed (header1Bytes sampleData)
      ++ write_compressed (header2Bytes sampleData)
      ++ previewOut sampleData.preview
      ++ write_compressed (brickSectionBytes sampleData)
      ++ write_compressed [0, 0, 0, 0]) :=
  ⟨by decide, (C3_wire_layout sampleData [0, 0, 0, 0] (by decide)).1⟩

/-! ## Lemmas on the component-to-brick-index accumulation -/

theorem assocLookup_isSome_iff {β : Type} (l : List (String × β)) (key : String) :
    (assocLookup l key).isSome = true ↔ key ∈ l.map Prod.fst := by
  induction l with
  | nil => simp [assocLookup]
  | cons kv rest ih =>
      obtain ⟨k, v⟩ := kv
      by_cases h : k = key
      · subst h
        simp [assocLookup]
      · have h2 : ¬ key = k := fun hk => h hk.symm
        simp [assocLookup, h, h2, ih]

@[simp] theorem optAppend_none_nil : optAppend none [] = none := rfl

@[simp] theorem optAppend_none_cons (x : Nat) (l : List Nat) :
    optAppend none (x :: l) = some (x :: l) := rfl

@[simp] theorem optAppend_some (a l : List Nat) :
    optAppend (some a) l = some (a ++ l) := rfl

theorem assocLookup_cbInsert_self (m : List (String × List Nat)) (k : String) (i : Nat) :
    assocLookup (cbInsert m k i) k = some ((assocLookup m k).getD [] ++ [i]) := by
  induction m with
  | nil => simp [cbInsert, assocLookup]
  | cons kv rest ih =>
      obtain ⟨k2, l⟩ := kv
      by_cases h : k2 = k <;> simp [cbInsert, assocLookup, h, ih]

theorem assocLookup_cbInsert_other (m : List (String × List Nat)) (k : String)
    (i : Nat) (key : String) (h : key ≠ k) :
    assocLookup (cbInsert m k i) key = assocLookup m key := by
  have hks : ¬ k = key := fun hk => h hk.symm
  induction m with
  | nil => simp [cbInsert, assocLookup, hks]
  | cons kv rest ih =>
      obtain ⟨k2, l⟩ := kv
      by_cases h2 : k2 = k
      · subst h2
        simp [cbInsert, assocLookup, hks]
      · by_cases h3 : k2 = key
        · subst h3
          simp [cbInsert, assocLookup, h2]
        · simp [cbInsert, assocLookup, h2, h3, ih]

theorem assocLookup_cbAddBrick_not_mem (keys : List String) :
    ∀ (m : List (String × List Nat)) (i : Nat) (name : String),
      name ∉ keys →
      assocLookup (cbAddBrick m i keys) name = assocLookup m name := by
  induction keys with
  | nil => intro m i name _; rfl
  | cons k ks ih =>
      intro m i name h
      have hne : name ≠ k := fun hk => h (hk ▸ List.mem_cons_self k ks)
      have hnot : name ∉ ks := fun hk => h (List.mem_cons_of_mem k hk)
      calc assocLookup (cbAddBrick (cbInsert m k i) i ks) name
          = assocLookup (cbInsert m k i) name := ih (cbInsert m k i) i name hnot
        _ = assocLookup m name := assocLookup_cbInsert_other m k i name hne

theorem assocLookup_cbAddBrick_mem (keys : List String) :
    ∀ (m : List (String × List Nat)) (i : Nat) (name : String),
      keys.Nodup → name ∈ keys →
      assocLookup (cbAddBrick m i keys) name
        = some ((assocLookup m name).getD [] ++ [i]) := by
  induction keys with
  | nil => intro m i name _ h; cases h
  | cons k ks ih =>
      intro m i name hnd h
      have hnd2 : ks.Nodup := (List.nodup_cons.mp hnd).2
      by_cases hk : name = k
      · subst hk
        have hnot : name ∉ ks := (List.nodup_cons.mp hnd).1
        calc assocLookup (cbAddBrick (cbInsert m name i) i ks) name
            = assocLookup (cbInsert m name i) name :=
              assocLookup_cbAddBrick_not_mem ks (cbInsert m name i) i name hnot
          _ = some ((assocLookup m name).getD [] ++ [i]) :=
              assocLookup_cbInsert_self m name i
      · have hmem : name ∈ ks := by
          cases List.mem_cons.mp h with
          | inl h2 => exact absurd h2 hk
          | inr h2 => exact h2
        calc assocLookup (cbAddBrick (cbInsert m k i) i ks) name
            = some ((assocLookup (cbInsert m k i) name).getD [] ++ [i]) :=
              ih (cbInsert m k i) i name hnd2 hmem
          _ = some ((assocLookup m name).getD [] ++ [i]) := by
              rw [assocLookup_cbInsert_other m k i name hk]

/-- Characterization of the accumulated map: looking a name up after the
brick loop yields the starting entry extended by one index per brick that
references the name, in traversal order. -/
theorem cbBuild_lookup (name : String) (bricks : List Brick) :
    ∀ (n : Nat) (m : List (String × List Nat)),
      (∀ b ∈ bricks, (b.components.map Prod.fst).Nodup) →
      assocLookup (cbBuild n bricks m) name
        = optAppend (assocLookup m name) (idxList name n bricks) := by
  induction bricks with
  | nil =>
      intro n m _
      cases h : assocLookup m name <;> simp [cbBuild, idxList, optAppend, h]
  | cons b rest ih =>
      intro n m hnd
      have hrest : ∀ b2 ∈ rest, (b2.components.map Prod.fst).Nodup :=
        fun b2 hb2 => hnd b2 (List.mem_cons_of_mem b hb2)
      have hb : (b.components.map Prod.fst).Nodup := hnd b (List.mem_cons_self b rest)
      show assocLookup (cbBuild (n + 1) rest (cbAddBrick m n (b.components.map Prod.fst))) name
        = optAppend (assocLookup m name) (idxList name n (b :: rest))
      rw [ih (n + 1) _ hrest]
      by_cases hc : hasComp b name
      · have hmem : name ∈ b.components.map Prod.fst := by
          rw [← assocLookup_isSome_iff]
          exact hc
        rw [assocLookup_cbAddBrick_mem _ m n name hb hmem]
        have : idxList name n (b :: rest) = n :: idxList name (n + 1) rest := by
          simp [idxList, hc]
        rw [this]
        cases h : assocLookup m name <;> simp [optAppend, h]
      · have hmem : name ∉ b.components.map Prod.fst := by
          rw [← assocLookup_isSome_iff]
          exact hc
        rw [assocLookup_cbAddBrick_not_mem _ m n name hmem]
        have : idxList name n (b :: rest) = idxList name (n + 1) rest := by
          simp [idxList, hc]
        rw [this]

/-- Membership in the accumulated index list is exactly referencing the
component, with indices shifted by the starting offset. -/
theorem mem_idxList (name : String) (bricks : List Brick) :
    ∀ (n j : Nat), j ∈ idxList name n bricks
      ↔ ∃ i b, j = n + i ∧ bricks.get? i = some b ∧ hasComp b name = true := by
  induction bricks with
  | nil =>
      intro n j
      simp [idxList]
  | cons b rest ih =>
      intro n j
      constructor
      · intro hj
        by_cases hc : hasComp b name
        · rw [show idxList name n (b :: rest) = n :: idxList name (n + 1) rest from by
            simp [idxList, hc]] at hj
          cases List.mem_cons.mp hj with
          | inl h => exact ⟨0, b, by omega, rfl, hc⟩
          | inr h =>
              obtain ⟨i, b2, hje, hget, hcomp⟩ := (ih (n + 1) j).mp h
              exact ⟨i + 1, b2, by omega, hget, hcomp⟩
        · rw [show idxList name n (b :: rest) = idxList name (n + 1) rest from by
            simp [idxList, hc]] at hj
          obtain ⟨i, b2, hje, hget, hcomp⟩ := (ih (n + 1) j).mp hj
          exact ⟨i + 1, b2, by omega, hget, hcomp⟩
      · rintro ⟨i, b2, hje, hget, hcomp⟩
        cases i with
        | zero =>
            have hget2 : some b = some b2 := hget
            have hbb : b = b2 := Option.some.inj hget2
            have hc : hasComp b name = true := by
              rw [hbb]
              exact hcomp
            have hl : idxList name n (b :: rest) = n :: idxList name (n + 1) rest := by
              simp [idxList, hc]
            rw [hl]
            simp [hje]
        | succ i =>
            have hget2 : rest.get? i = some b2 := hget
            have : j ∈ idxList name (n + 1) rest :=
              (ih (n + 1) j).mpr ⟨i, b2, by omega, hget2, hcomp⟩
            by_cases hc : hasComp b name
            · rw [show idxList name n (b :: rest) = n :: idxList name (n + 1) rest from by
                simp [idxList, hc]]
              exact List.mem_cons_of_mem n this
            · rw [show idxList name n (b :: rest) = idxList name (n + 1) rest from by
                simp [idxList, hc]]
              exact this

/-- Every accumulated index list is strictly ascending. -/
theorem idxList_pairwise (name : String) (bricks : List Brick) :
    ∀ n : Nat, (idxList name n bricks).Pairwise (· < ·) := by
  induction bricks with
  | nil => intro n; simp [idxList]
  | cons b rest ih =>
      intro n
      by_cases hc : hasComp b name
      · rw [show idxList name n (b :: rest) = n :: idxList name (n + 1) rest from by
          simp [idxList, hc]]
        refine List.Pairwise.cons ?_ (ih (n + 1))
        intro j hj
        obtain ⟨i, b2, hje, _, _⟩ := (mem_idxList name rest (n + 1) j).mp hj
        omega
      · rw [show idxList name n (b :: rest) = idxList name (n + 1) rest from by
          simp [idxList, hc]]
        exact ih (n + 1)

/-- When no brick references the name, nothing is ever accumulated. -/
theorem idxList_eq_nil (name : String) (bricks : List Brick)
    (h : ∀ b ∈ bricks, hasComp b name = false) :
    ∀ n : Nat, idxList name n bricks = [] := by
  induction bricks with
  | nil => intro n; rfl
  | cons b rest ih =>
      intro n
      have hb : hasComp b name = false := h b (List.mem_cons_self b rest)
      have hrest : ∀ b2 ∈ rest, hasComp b2 name = false :=
        fun b2 hb2 => h b2 (List.mem_cons_of_mem b hb2)
      simp [idxList, hb, ih hrest]

/-- A failing element poisons the whole optional traversal, mirroring a
panic inside a Rust loop. -/
theorem traverseOpt_eq_none {α β : Type} (f : α → Option β) (l : List α)
    (x : α) (hx : x ∈ l) (hf : f x = none) : traverseOpt f l = none := by
  induction l with
  | nil => cases hx
  | cons a rest ih =>
      cases List.mem_cons.mp hx with
      | inl h =>
          subst h
          simp [traverseOpt, hf]
      | inr h =>
          cases hfa : f a with
          | none => simp [traverseOpt, hfa]
          | some b => simp [traverseOpt, hfa, ih h]

/-! ## Remaining claims -/

/-- C8: for every component name referenced by at least one brick, the
accumulated brick-index list exists, contains exactly the indices of the
bricks whose component map holds that name, and is strictly ascending. -/
theorem C8_component_brick_indices (data : SaveData) (name : String)
    (hnd : ∀ b ∈ data.bricks, (b.components.map Prod.fst).Nodup)
    (i : Nat) (b : Brick) (hib : data.bricks.get? i = some b)
    (hcomp : hasComp b name = true) :
    ∃ idxs, assocLookup (componentBricks data.bricks) name = some idxs
      ∧ (∀ j, j ∈ idxs ↔ ∃ b2, data.bricks.get? j = some b2 ∧ hasComp b2 name = true)
      ∧ idxs.Pairwise (· < ·) := by
  have hchar := cbBuild_lookup name data.bricks 0 [] hnd
  have hmem : i ∈ idxList name 0 data.bricks :=
    (mem_idxList name data.bricks 0 i).mpr ⟨i, b, by omega, hib, hcomp⟩
  have hne : idxList name 0 data.bricks ≠ [] := by
    intro h
    rw [h] at hmem
    cases hmem
  refine ⟨idxList name 0 data.bricks, ?_, ?_, idxList_pairwise name data.bricks 0⟩
  · rw [show componentBricks data.bricks = cbBuild 0 data.bricks [] from rfl, hchar]
    cases hl : idxList name 0 data.bricks with
    | nil => exact absurd hl hne
    | cons x l => simp [assocLookup]
  · intro j
    rw [mem_idxList name data.bricks 0 j]
    constructor
    · rintro ⟨i2, b2, hje, hget, hc2⟩
      have hij : i2 = j := by omega
      subst hij
      exact ⟨b2, hget, hc2⟩
    · rintro ⟨b2, hget, hc2⟩
      exact ⟨j, b2, by omega, hget, hc2⟩

/-- Witness for C8 at a one-brick document referencing "Health". -/
theorem C8_component_brick_indices_witness :
    ∃ idxs, assocLookup (componentBricks sampleDataHealth.bricks) "Health" = some idxs
      ∧ (∀ j, j ∈ idxs ↔ ∃ b2, sampleDataHealth.bricks.get? j = some b2
          ∧ hasComp b2 "Health" = true)
      ∧ idxs.Pairwise (· < ·) :=
  C8_component_brick_indices sampleDataHealth "Health" (by decide) 0
    sampleBrickHealth (by rfl) (by decide)

/-- C6: when a brick references a component by name but its component-value
map lacks an entry for some schema property, the encoder fails (the brick
and component sections are never produced) rather than writing a gap or
placeholder. -/
theorem C6_missing_property_fails (data : SaveData) (name : String)
    (comp : Component)
    (hnd : ∀ b ∈ data.bricks, (b.components.map Prod.fst).Nodup)
    (hentry : (name, comp) ∈ data.components)
    (p ptype : String) (hp : (p, ptype) ∈ comp.properties)
    (i : Nat) (b : Brick) (hib : data.bricks.get? i = some b)
    (inner : List (String × UnrealType))
    (hbc : assocLookup b.components name = some inner)
    (hmiss : assocLookup inner p = none) :
    write_bricksOut data = none ∧ write data = none := by
  have hcomp : hasComp b name = true := by
    unfold hasComp
    rw [hbc]
    rfl
  have hchar := cbBuild_lookup name data.bricks 0 [] hnd
  have hmem : i ∈ idxList name 0 data.bricks :=
    (mem_idxList name data.bricks 0 i).mpr ⟨i, b, by omega, hib, hcomp⟩
  have hlook : assocLookup (componentBricks data.bricks) name
      = some (idxList name 0 data.bricks) := by
    rw [show componentBricks data.bricks = cbBuild 0 data.bricks [] from rfl, hchar]
    cases hl : idxList name 0 data.bricks with
    | nil =>
        rw [hl] at hmem
        cases hmem
    | cons x l => simp [assocLookup]
  have hprops : traverseOpt (fun pr =>
      match assocLookup b.components name with
      | none => none
      | some inner2 =>
          match assocLookup inner2 pr.1 with
          | none => none
          | some v => some v.wire) comp.properties = none := by
    apply traverseOpt_eq_none _ _ (p, ptype) hp
    rw [hbc]
    simp [hmiss]
  have hvals : brickValues data.bricks name comp.properties i = none := by
    unfold brickValues
    rw [hib]
    simp [hprops]
  have hentryNone : writeComponentEntry data.bricks (componentBricks data.bricks)
      data.bricks.length (name, comp) = none := by
    unfold writeComponentEntry
    rw [hlook]
    have : traverseOpt (brickValues data.bricks name comp.properties)
        (idxList name 0 data.bricks) = none :=
      traverseOpt_eq_none _ _ i hmem hvals
    simp only [this]
  have hsec : componentSectionBytes data = none := by
    unfold componentSectionBytes
    rw [traverseOpt_eq_none _ data.components (name, comp) hentry hentryNone]
    rfl
  have hbricksOut : write_bricksOut data = none := by
    unfold write_bricksOut
    rw [hsec]
    rfl
  refine ⟨hbricksOut, ?_⟩
  unfold write
  rw [hbricksOut]
  rfl

/-- Witness for C6 at a document whose brick misses the "value"
property. -/
theorem C6_missing_property_fails_witness :
    write_bricksOut sampleDataNoValue = none ∧ write sampleDataNoValue = none :=
  C6_missing_property_fails sampleDataNoValue "Health" sampleComponent
    (by decide) (by decide) "value" "int" (by decide) 0 sampleBrickNoValue
    (by rfl) [] (by rfl) (by rfl)

/-- C10: a component name present in the document's component map but
referenced by no brick makes `write_bricks` fail (the accumulated map has
no entry for the name), instead of emitting an empty index list. -/
theorem C10_unreferenced_component_fails (data : SaveData) (name : String)
    (comp : Component)
    (hnd : ∀ b ∈ data.bricks, (b.components.map Prod.fst).Nodup)
    (hentry : (name, comp) ∈ data.components)
    (habs : ∀ b ∈ data.bricks, hasComp b name = false) :
    write_bricksOut data = none ∧ write data = none := by
  have hchar := cbBuild_lookup name data.bricks 0 [] hnd
  have hnil := idxList_eq_nil name data.bricks habs 0
  have hlook : assocLookup (componentBricks data.bricks) name = none := by
    rw [show componentBricks data.bricks = cbBuild 0 data.bricks [] from rfl, hchar,
      hnil]
    rfl
  have hentryNone : writeComponentEntry data.bricks (componentBricks data.bricks)
      data.bricks.length (name, comp) = none := by
    unfold writeComponentEntry
    rw [hlook]
  have hsec : componentSectionBytes data = none := by
    unfold componentSectionBytes
    rw [traverseOpt_eq_none _ data.components (name, comp) hentry hentryNone]
    rfl
  have hbricksOut : write_bricksOut data = none := by
    unfold write_bricksOut
    rw [hsec]
    rfl
  refine ⟨hbricksOut, ?_⟩
  unfold write
  rw [hbricksOut]
  rfl

/-- Witness for C10 at a document carrying an orphan component. -/
theorem C10_unreferenced_component_fails_witness :
    write_bricksOut sampleDataOrphan = none ∧ write sampleDataOrphan = none :=
  C10_unreferenced_component_fails sampleDataOrphan "Health" sampleComponent
    (by decide) (by decide) (by decide)

end Brs
